import Mathlib

/-!
Verification of the probability-of-touch core of the Condor Strike Selector.

The definitions below are a shallow embedding of `src/app.py.py`:

* `normCdf` models `scipy.stats.norm.cdf`, the standard normal cumulative
  distribution function Φ, as the Lebesgue integral of the standard
  gaussian density over `(-∞, z]`;
* `prob_touch` embeds the function at lines 13–19 (degenerate guard
  `T ≤ 0 or sigma ≤ 0 → 0`, else the reflection formula
  `2 * (1 - Φ(|log (S / K)| / (sigma * sqrt T)))`);
* `call_target`, `put_target` and `nearest_strike` embed the strike
  resolution at lines 113–116 (targets `S * (1 ± pct_OTM / 100)` and the
  `argsort`-based nearest-strike lookup, which returns an element of the
  chain minimising the absolute difference to the target);
* `pot_raw` embeds lines 144–145 (`prob_touch(...) if iv is not None
  else 0`), `clamp01` lines 147–148 (`min(max(x, 0), 1)`),
  `prob_either_touch` / `prob_neither_touch` lines 150–151, and
  `evaluate` chains them the way lines 144–151 do.
-/

open MeasureTheory ProbabilityTheory Set

/-- The standard normal cumulative distribution function Φ, modelling
`scipy.stats.norm.cdf`: the integral of the standard gaussian density
over `(-∞, z]`. -/
noncomputable def normCdf (z : ℝ) : ℝ :=
  ∫ x in Iic z, gaussianPDFReal 0 1 x

/-- `prob_touch` from `src/app.py.py` lines 13–19: return `0` when
`T <= 0 or sigma <= 0`, otherwise
`2 * (1 - norm.cdf(abs(log(S / K)) / (sigma * sqrt(T))))`. -/
noncomputable def prob_touch (S K T sigma : ℝ) : ℝ :=
  if T ≤ 0 ∨ sigma ≤ 0 then 0
  else 2 * (1 - normCdf (|Real.log (S / K)| / (sigma * Real.sqrt T)))

/-- The touch-probability formula in the spec's own words (§4.1): with
`z = |ln(S / K)| / (σ · √T)`, the touch probability is `2 · (1 − Φ(z))`.
Stated separately from `prob_touch` so that the refinement claim can
compare the two. -/
noncomputable def estimate_touch_spec (S K T sigma : ℝ) : ℝ :=
  2 * (1 - normCdf (|Real.log (S / K)| / (sigma * Real.sqrt T)))

/-- The clamp applied at lines 147–148: `min(max(x, 0), 1)`. -/
noncomputable def clamp01 (x : ℝ) : ℝ := min (max x 0) 1

/-- Lines 144–145: `prob_touch(S, strike, T, iv) if iv is not None else 0`.
A missing implied volatility yields the plain number `0`, not an error. -/
noncomputable def pot_raw (S T K : ℝ) (iv : Option ℝ) : ℝ :=
  match iv with
  | some sigma => prob_touch S K T sigma
  | none => 0

/-- Line 150: `prob_either_touch = pot_call + pot_put - (pot_call * pot_put)`. -/
noncomputable def prob_either_touch (pot_call pot_put : ℝ) : ℝ :=
  pot_call + pot_put - pot_call * pot_put

/-- Line 151: `prob_neither_touch = 1 - prob_either_touch`; defined from
`prob_either_touch` by construction, exactly as in the source. -/
noncomputable def prob_neither_touch (pot_call pot_put : ℝ) : ℝ :=
  1 - prob_either_touch pot_call pot_put

/-- The quantities computed by lines 144–151 for one strategy evaluation. -/
structure StrategyOutcome where
  pot_call : ℝ
  pot_put : ℝ
  prob_either : ℝ
  prob_neither : ℝ

/-- Lines 144–151 as one pipeline: raw per-leg probabilities (with `0`
substituted for a missing implied volatility), the clamp of lines 147–148,
then the combination of lines 150–151 applied to the clamped values. -/
noncomputable def evaluate (S T call_strike put_strike : ℝ)
    (call_iv put_iv : Option ℝ) : StrategyOutcome :=
  let pc := clamp01 (pot_raw S T call_strike call_iv)
  let pp := clamp01 (pot_raw S T put_strike put_iv)
  { pot_call := pc
    pot_put := pp
    prob_either := prob_either_touch pc pp
    prob_neither := prob_neither_touch pc pp }

/-- Line 113: `call_target = S * (1 + pct_OTM / 100)`. -/
noncomputable def call_target (S pct_OTM : ℝ) : ℝ := S * (1 + pct_OTM / 100)

/-- Line 114: `put_target = S * (1 - pct_OTM / 100)`. -/
noncomputable def put_target (S pct_OTM : ℝ) : ℝ := S * (1 - pct_OTM / 100)

/-- Lines 115–116: `strikes.iloc[(strikes - target).abs().argsort()[0]]`,
i.e. an available strike whose absolute difference to the target is
minimal (the first index of a minimal element). Empty chains yield
`none` (the source would fail earlier, at the availability check). -/
noncomputable def nearest_strike : List ℝ → ℝ → Option ℝ
  | [], _ => none
  | x :: xs, t => some (xs.foldl (fun b a => if |a - t| < |b - t| then a else b) x)

/-! ### Facts about the standard normal CDF -/

lemma gaussian_integrableOn (s : Set ℝ) : IntegrableOn (gaussianPDFReal 0 1) s :=
  (integrable_gaussianPDFReal 0 1).integrableOn

lemma normCdf_nonneg (z : ℝ) : 0 ≤ normCdf z :=
  setIntegral_nonneg measurableSet_Iic fun x _ => gaussianPDFReal_nonneg 0 1 x

lemma normCdf_le_one (z : ℝ) : normCdf z ≤ 1 := by
  have h : normCdf z ≤ ∫ x, gaussianPDFReal 0 1 x :=
    setIntegral_le_integral (integrable_gaussianPDFReal 0 1)
      (ae_of_all _ fun x => gaussianPDFReal_nonneg 0 1 x)
  calc normCdf z ≤ ∫ x, gaussianPDFReal 0 1 x := h
    _ = 1 := integral_gaussianPDFReal_eq_one 0 one_ne_zero

lemma normCdf_strictMono : StrictMono normCdf := by
  intro a b hab
  have hsub : normCdf b - normCdf a = ∫ x in a..b, gaussianPDFReal 0 1 x :=
    intervalIntegral.integral_Iic_sub_Iic (gaussian_integrableOn _) (gaussian_integrableOn _)
  have hpos : 0 < ∫ x in a..b, gaussianPDFReal 0 1 x :=
    intervalIntegral.intervalIntegral_pos_of_pos
      (integrable_gaussianPDFReal 0 1).intervalIntegrable
      (fun x => gaussianPDFReal_pos 0 1 x one_ne_zero) hab
  linarith

lemma gaussianPDFReal_neg_arg (x : ℝ) :
    gaussianPDFReal 0 1 (-x) = gaussianPDFReal 0 1 x := by
  simp [gaussianPDFReal, neg_sq]

lemma normCdf_zero : normCdf 0 = 1 / 2 := by
  have htot : normCdf 0 + ∫ x in Ioi (0 : ℝ), gaussianPDFReal 0 1 x = 1 := by
    rw [normCdf,
      intervalIntegral.integral_Iic_add_Ioi (gaussian_integrableOn _) (gaussian_integrableOn _)]
    exact integral_gaussianPDFReal_eq_one 0 one_ne_zero
  have hsymm : (∫ x in Ioi (0 : ℝ), gaussianPDFReal 0 1 x) = normCdf 0 := by
    rw [normCdf]
    have hneg := integral_comp_neg_Iic (0 : ℝ) (gaussianPDFReal 0 1)
    rw [neg_zero] at hneg
    rw [← hneg]
    exact setIntegral_congr_fun measurableSet_Iic fun x _ => gaussianPDFReal_neg_arg x
  linarith

lemma normCdf_ge_half {z : ℝ} (hz : 0 ≤ z) : 1 / 2 ≤ normCdf z := by
  calc (1 : ℝ) / 2 = normCdf 0 := normCdf_zero.symm
    _ ≤ normCdf z := normCdf_strictMono.monotone hz

lemma normCdf_gt_half {z : ℝ} (hz : 0 < z) : 1 / 2 < normCdf z := by
  calc (1 : ℝ) / 2 = normCdf 0 := normCdf_zero.symm
    _ < normCdf z := normCdf_strictMono hz

/-! ### Helper facts about `prob_touch` and the clamp -/

lemma prob_touch_mem_Icc (S K T sigma : ℝ) :
    0 ≤ prob_touch S K T sigma ∧ prob_touch S K T sigma ≤ 1 := by
  rw [prob_touch]
  split_ifs with h
  · norm_num
  · push_neg at h
    obtain ⟨hT, hsigma⟩ := h
    have hz : (0 : ℝ) ≤ |Real.log (S / K)| / (sigma * Real.sqrt T) :=
      div_nonneg (abs_nonneg _) (mul_pos hsigma (Real.sqrt_pos.mpr hT)).le
    have h1 := normCdf_ge_half hz
    have h2 := normCdf_le_one (|Real.log (S / K)| / (sigma * Real.sqrt T))
    constructor <;> linarith

lemma clamp01_mem (x : ℝ) : 0 ≤ clamp01 x ∧ clamp01 x ≤ 1 :=
  ⟨le_min (le_max_right x 0) zero_le_one, min_le_right _ 1⟩

lemma foldl_nearest_spec (t : ℝ) :
    ∀ (xs : List ℝ) (x : ℝ),
      xs.foldl (fun b a => if |a - t| < |b - t| then a else b) x ∈ x :: xs ∧
      ∀ y ∈ x :: xs,
        |xs.foldl (fun b a => if |a - t| < |b - t| then a else b) x - t| ≤ |y - t| := by
  intro xs
  induction xs with
  | nil =>
    intro x
    constructor
    · simp
    · intro y hy
      rw [List.mem_singleton] at hy
      subst hy
      simp
  | cons a as ih =>
    intro x
    obtain ⟨hmem, hmin⟩ := ih (if |a - t| < |x - t| then a else x)
    have hxa1 : |(if |a - t| < |x - t| then a else x) - t| ≤ |x - t| := by
      split_ifs with hc
      · exact hc.le
      · exact le_rfl
    have hxa2 : |(if |a - t| < |x - t| then a else x) - t| ≤ |a - t| := by
      split_ifs with hc
      · exact le_rfl
      · exact not_lt.mp hc
    constructor
    · simp only [List.foldl_cons]
      rcases List.mem_cons.mp hmem with hy | hy
      · rw [hy]
        split_ifs
        · exact List.mem_cons_of_mem _ (List.mem_cons_self _ _)
        · exact List.mem_cons_self _ _
      · exact List.mem_cons_of_mem _ (List.mem_cons_of_mem _ hy)
    · intro y hy
      simp only [List.foldl_cons]
      rcases List.mem_cons.mp hy with hy | hy
      · subst hy
        exact le_trans (hmin _ (List.mem_cons_self _ _)) hxa1
      rcases List.mem_cons.mp hy with hy | hy
      · subst hy
        exact le_trans (hmin _ (List.mem_cons_self _ _)) hxa2
      · exact hmin y (List.mem_cons_of_mem _ hy)

/-! ### Claim theorems -/

/-- C1 (code-bug evidence): when a leg's implied volatility is missing
(`none`), lines 144–145 substitute the plain probability `0` for that leg
and the pipeline proceeds to a normal combined outcome; no
data-availability error exists anywhere in the computation, contrary to
the spec's missing-leg-data error requirement. Concretely, with the put
volatility missing the put leg gets probability `0` and `prob_either`
degenerates to the call leg alone. -/
theorem missing_leg_substitutes_zero :
    pot_raw 15000 (2 / 365) 14700 none = 0 ∧
    (evaluate 15000 (2 / 365) 15300 14700 (some (18 / 100)) none).pot_put = 0 ∧
    (evaluate 15000 (2 / 365) 15300 14700 (some (18 / 100)) none).prob_either =
      (evaluate 15000 (2 / 365) 15300 14700 (some (18 / 100)) none).pot_call := by
  have hclamp : clamp01 (0 : ℝ) = 0 := by norm_num [clamp01]
  refine ⟨rfl, ?_, ?_⟩
  · show clamp01 (pot_raw 15000 (2 / 365) 14700 none) = 0
    rw [show pot_raw 15000 (2 / 365) 14700 none = 0 from rfl, hclamp]
  · show prob_either_touch (clamp01 (pot_raw 15000 (2 / 365) 15300 (some (18 / 100))))
        (clamp01 (pot_raw 15000 (2 / 365) 14700 none)) =
      clamp01 (pot_raw 15000 (2 / 365) 15300 (some (18 / 100)))
    rw [show pot_raw 15000 (2 / 365) 14700 none = 0 from rfl, hclamp, prob_either_touch]
    ring

/-- C2: for positive spot, strike, horizon and volatility, `prob_touch`
computes exactly the spec's reflection formula
`2 · (1 − Φ(|ln(S/K)| / (σ·√T)))`. -/
theorem prob_touch_eq_spec_formula (S K T sigma : ℝ)
    (hS : 0 < S) (hK : 0 < K) (hT : 0 < T) (hsigma : 0 < sigma) :
    prob_touch S K T sigma = estimate_touch_spec S K T sigma := by
  have h : ¬(T ≤ 0 ∨ sigma ≤ 0) := by push_neg; exact ⟨hT, hsigma⟩
  rw [prob_touch, estimate_touch_spec, if_neg h]

/-- Witness for C2 at S = 2, K = 1, T = 1, σ = 1. -/
theorem prob_touch_eq_spec_formula_witness :
    prob_touch 2 1 1 1 = estimate_touch_spec 2 1 1 1 :=
  prob_touch_eq_spec_formula 2 1 1 1 (by norm_num) (by norm_num) (by norm_num) (by norm_num)

/-- C3: a degenerate horizon or volatility (`T ≤ 0` or `σ ≤ 0`) makes
`prob_touch` return `0` (the embedding is a total function, so no error is
raised); in particular `T = 0` and `σ = 0` give `0`. -/
theorem prob_touch_degenerate (S K T sigma : ℝ) :
    (T ≤ 0 ∨ sigma ≤ 0 → prob_touch S K T sigma = 0) ∧
    prob_touch S K 0 sigma = 0 ∧ prob_touch S K T 0 = 0 := by
  refine ⟨fun h => ?_, ?_, ?_⟩
  · rw [prob_touch, if_pos h]
  · rw [prob_touch, if_pos (Or.inl le_rfl)]
  · rw [prob_touch, if_pos (Or.inr le_rfl)]

/-- Witness for C3 at concrete degenerate inputs. -/
theorem prob_touch_degenerate_witness :
    prob_touch 100 90 (-1) (1 / 2) = 0 ∧
    prob_touch 100 90 0 (1 / 2) = 0 ∧ prob_touch 100 90 (3 / 365) 0 = 0 :=
  ⟨(prob_touch_degenerate 100 90 (-1) (1 / 2)).1 (Or.inl (by norm_num)),
   (prob_touch_degenerate 100 90 0 (1 / 2)).2.1,
   (prob_touch_degenerate 100 90 (3 / 365) 0).2.2⟩

/-- C4: at the money (`K = S`) with positive horizon and volatility, the
touch probability is exactly `1`: `z = 0` and `2 · (1 − Φ(0)) = 1`. -/
theorem prob_touch_atm (S T sigma : ℝ)
    (hS : 0 < S) (hT : 0 < T) (hsigma : 0 < sigma) :
    prob_touch S S T sigma = 1 := by
  have h : ¬(T ≤ 0 ∨ sigma ≤ 0) := by push_neg; exact ⟨hT, hsigma⟩
  rw [prob_touch, if_neg h, div_self (ne_of_gt hS), Real.log_one, abs_zero, zero_div,
    normCdf_zero]
  norm_num

/-- Witness for C4 at S = 100, T = 1, σ = 1/2. -/
theorem prob_touch_atm_witness : prob_touch 100 100 1 (1 / 2) = 1 :=
  prob_touch_atm 100 1 (1 / 2) (by norm_num) (by norm_num) (by norm_num)

/-- C5: for positive inputs `prob_touch` lands in `[0, 1]`, and in the
pipeline of lines 144–151 each per-leg probability handed to the combiner
is the clamped value `clamp01 (pot_raw …)`, lies in `[0, 1]`, and the
combined outcomes are computed from exactly those clamped values. -/
theorem prob_touch_unit_interval_and_clamp (S K T sigma call_strike put_strike : ℝ)
    (call_iv put_iv : Option ℝ)
    (hS : 0 < S) (hK : 0 < K) (hT : 0 < T) (hsigma : 0 < sigma) :
    (0 ≤ prob_touch S K T sigma ∧ prob_touch S K T sigma ≤ 1) ∧
    (evaluate S T call_strike put_strike call_iv put_iv).pot_call =
      clamp01 (pot_raw S T call_strike call_iv) ∧
    (evaluate S T call_strike put_strike call_iv put_iv).pot_put =
      clamp01 (pot_raw S T put_strike put_iv) ∧
    (0 ≤ (evaluate S T call_strike put_strike call_iv put_iv).pot_call ∧
      (evaluate S T call_strike put_strike call_iv put_iv).pot_call ≤ 1) ∧
    (0 ≤ (evaluate S T call_strike put_strike call_iv put_iv).pot_put ∧
      (evaluate S T call_strike put_strike call_iv put_iv).pot_put ≤ 1) ∧
    (evaluate S T call_strike put_strike call_iv put_iv).prob_either =
      prob_either_touch (evaluate S T call_strike put_strike call_iv put_iv).pot_call
        (evaluate S T call_strike put_strike call_iv put_iv).pot_put ∧
    (evaluate S T call_strike put_strike call_iv put_iv).prob_neither =
      prob_neither_touch (evaluate S T call_strike put_strike call_iv put_iv).pot_call
        (evaluate S T call_strike put_strike call_iv put_iv).pot_put :=
  ⟨prob_touch_mem_Icc S K T sigma, rfl, rfl, clamp01_mem _, clamp01_mem _, rfl, rfl⟩

/-- Witness for C5 at the spec's scenario values. -/
theorem prob_touch_unit_interval_and_clamp_witness :
    (0 ≤ prob_touch 15000 15300 (2 / 365) (18 / 100) ∧
      prob_touch 15000 15300 (2 / 365) (18 / 100) ≤ 1) ∧
    (evaluate 15000 (2 / 365) 15300 14700 (some (18 / 100))
        (some (20 / 100))).pot_call =
      clamp01 (pot_raw 15000 (2 / 365) 15300 (some (18 / 100))) ∧
    (evaluate 15000 (2 / 365) 15300 14700 (some (18 / 100))
        (some (20 / 100))).pot_put =
      clamp01 (pot_raw 15000 (2 / 365) 14700 (some (20 / 100))) ∧
    (0 ≤ (evaluate 15000 (2 / 365) 15300 14700 (some (18 / 100))
        (some (20 / 100))).pot_call ∧
      (evaluate 15000 (2 / 365) 15300 14700 (some (18 / 100))
        (some (20 / 100))).pot_call ≤ 1) ∧
    (0 ≤ (evaluate 15000 (2 / 365) 15300 14700 (some (18 / 100))
        (some (20 / 100))).pot_put ∧
      (evaluate 15000 (2 / 365) 15300 14700 (some (18 / 100))
        (some (20 / 100))).pot_put ≤ 1) ∧
    (evaluate 15000 (2 / 365) 15300 14700 (some (18 / 100))
        (some (20 / 100))).prob_either =
      prob_either_touch
        (evaluate 15000 (2 / 365) 15300 14700 (some (18 / 100))
          (some (20 / 100))).pot_call
        (evaluate 15000 (2 / 365) 15300 14700 (some (18 / 100))
          (some (20 / 100))).pot_put ∧
    (evaluate 15000 (2 / 365) 15300 14700 (some (18 / 100))
        (some (20 / 100))).prob_neither =
      prob_neither_touch
        (evaluate 15000 (2 / 365) 15300 14700 (some (18 / 100))
          (some (20 / 100))).pot_call
        (evaluate 15000 (2 / 365) 15300 14700 (some (18 / 100))
          (some (20 / 100))).pot_put :=
  prob_touch_unit_interval_and_clamp 15000 15300 (2 / 365) (18 / 100) 15300 14700
    (some (18 / 100)) (some (20 / 100))
    (by norm_num) (by norm_num) (by norm_num) (by norm_num)

/-- C6: with spot, horizon and volatility fixed and positive, the touch
probability strictly decreases as the log-distance `|ln(S/K)|` of the
strike from spot increases. -/
theorem prob_touch_strict_anti_in_log_distance (S K1 K2 T sigma : ℝ)
    (hS : 0 < S) (hK1 : 0 < K1) (hK2 : 0 < K2) (hT : 0 < T) (hsigma : 0 < sigma)
    (h : |Real.log (S / K1)| < |Real.log (S / K2)|) :
    prob_touch S K2 T sigma < prob_touch S K1 T sigma := by
  have hne : ¬(T ≤ 0 ∨ sigma ≤ 0) := by push_neg; exact ⟨hT, hsigma⟩
  rw [prob_touch, if_neg hne, prob_touch, if_neg hne]
  have hden : 0 < sigma * Real.sqrt T := mul_pos hsigma (Real.sqrt_pos.mpr hT)
  have hz : |Real.log (S / K1)| / (sigma * Real.sqrt T) <
      |Real.log (S / K2)| / (sigma * Real.sqrt T) :=
    (div_lt_div_iff_of_pos_right hden).mpr h
  have hmono := normCdf_strictMono hz
  linarith

/-- Witness for C6: the at-the-money strike 100 beats the farther strike 110. -/
theorem prob_touch_strict_anti_in_log_distance_witness :
    |Real.log ((100 : ℝ) / 100)| < |Real.log ((100 : ℝ) / 110)| ∧
    prob_touch 100 110 1 (1 / 2) < prob_touch 100 100 1 (1 / 2) := by
  have h : |Real.log ((100 : ℝ) / 100)| < |Real.log ((100 : ℝ) / 110)| := by
    have h1 : Real.log ((100 : ℝ) / 100) = 0 := by norm_num
    have h2 : Real.log ((100 : ℝ) / 110) ≠ 0 := by
      intro h0
      rcases Real.log_eq_zero.mp h0 with hc | hc | hc <;> norm_num at hc
    rw [h1, abs_zero]
    exact abs_pos.mpr h2
  exact ⟨h, prob_touch_strict_anti_in_log_distance 100 100 110 1 (1 / 2)
    (by norm_num) (by norm_num) (by norm_num) (by norm_num) (by norm_num) h⟩

/-- C7: for leg probabilities in `[0,1]`, the Condor combination is the
inclusion–exclusion value `pot_call + pot_put − pot_call·pot_put` with
complement `1 −` that value, and the boundary cases `(0,0) ↦ (0,1)` and
`(1, pot_put) ↦ (1, 0)` hold. -/
theorem condor_combination (pot_call pot_put : ℝ)
    (h0c : 0 ≤ pot_call) (h1c : pot_call ≤ 1) (h0p : 0 ≤ pot_put) (h1p : pot_put ≤ 1) :
    prob_either_touch pot_call pot_put = pot_call + pot_put - pot_call * pot_put ∧
    prob_neither_touch pot_call pot_put = 1 - prob_either_touch pot_call pot_put ∧
    prob_either_touch 0 0 = 0 ∧ prob_neither_touch 0 0 = 1 ∧
    prob_either_touch 1 pot_put = 1 ∧ prob_neither_touch 1 pot_put = 0 := by
  refine ⟨rfl, rfl, ?_, ?_, ?_, ?_⟩ <;>
    simp [prob_either_touch, prob_neither_touch]

/-- Witness for C7 at pot_call = 1/2, pot_put = 1/3. -/
theorem condor_combination_witness :
    prob_either_touch (1 / 2) (1 / 3) = 1 / 2 + 1 / 3 - (1 / 2) * (1 / 3) ∧
    prob_neither_touch (1 / 2) (1 / 3) = 1 - prob_either_touch (1 / 2) (1 / 3) ∧
    prob_either_touch 0 0 = 0 ∧ prob_neither_touch 0 0 = 1 ∧
    prob_either_touch 1 (1 / 3) = 1 ∧ prob_neither_touch 1 (1 / 3) = 0 :=
  condor_combination (1 / 2) (1 / 3) (by norm_num) (by norm_num) (by norm_num) (by norm_num)

/-- C8: the Condor outcomes sum to one exactly; this is by construction,
since `prob_neither_touch` is defined (line 151) as
`1 - prob_either_touch`. -/
theorem condor_outcomes_sum_to_one (pot_call pot_put : ℝ)
    (h0c : 0 ≤ pot_call) (h1c : pot_call ≤ 1) (h0p : 0 ≤ pot_put) (h1p : pot_put ≤ 1) :
    prob_either_touch pot_call pot_put + prob_neither_touch pot_call pot_put = 1 := by
  rw [prob_neither_touch]
  ring

/-- Witness for C8 at pot_call = 3/4, pot_put = 1/4. -/
theorem condor_outcomes_sum_to_one_witness :
    prob_either_touch (3 / 4) (1 / 4) + prob_neither_touch (3 / 4) (1 / 4) = 1 :=
  condor_outcomes_sum_to_one (3 / 4) (1 / 4) (by norm_num) (by norm_num) (by norm_num)
    (by norm_num)

/-- C9: for a non-empty strike chain, the selection of lines 113–116
returns a strike from the chain minimising the absolute difference to the
target `S·(1 ± pct/100)`; no chain strike is strictly closer, for the
call-side and the put-side target alike. -/
theorem strike_resolution_nearest (strikes : List ℝ) (S pct_OTM : ℝ)
    (h : strikes ≠ []) :
    (∃ k, nearest_strike strikes (call_target S pct_OTM) = some k ∧ k ∈ strikes ∧
      ∀ x ∈ strikes, |k - call_target S pct_OTM| ≤ |x - call_target S pct_OTM|) ∧
    (∃ k, nearest_strike strikes (put_target S pct_OTM) = some k ∧ k ∈ strikes ∧
      ∀ x ∈ strikes, |k - put_target S pct_OTM| ≤ |x - put_target S pct_OTM|) := by
  obtain ⟨x, xs, rfl⟩ := List.exists_cons_of_ne_nil h
  exact ⟨⟨_, rfl, (foldl_nearest_spec _ xs x).1, (foldl_nearest_spec _ xs x).2⟩,
    ⟨_, rfl, (foldl_nearest_spec _ xs x).1, (foldl_nearest_spec _ xs x).2⟩⟩

/-- Witness for C9 on the chain `[10, 20]` with S = 14, pct = 0. -/
theorem strike_resolution_nearest_witness :
    ([10, 20] : List ℝ) ≠ [] ∧
    ((∃ k, nearest_strike [10, 20] (call_target 14 0) = some k ∧
        k ∈ ([10, 20] : List ℝ) ∧
        ∀ x ∈ ([10, 20] : List ℝ),
          |k - call_target 14 0| ≤ |x - call_target 14 0|) ∧
      (∃ k, nearest_strike [10, 20] (put_target 14 0) = some k ∧
        k ∈ ([10, 20] : List ℝ) ∧
        ∀ x ∈ ([10, 20] : List ℝ),
          |k - put_target 14 0| ≤ |x - put_target 14 0|)) :=
  ⟨by simp, strike_resolution_nearest [10, 20] 14 0 (by simp)⟩

/-- C10: `prob_touch` is symmetric in spot and strike (there is no
in-the-money short-circuit), and away from the money (`S ≠ K`, positive
inputs) the result is strictly below `1`. -/
theorem prob_touch_symm (S K T sigma : ℝ) :
    prob_touch S K T sigma = prob_touch K S T sigma ∧
    (0 < S → 0 < K → 0 < T → 0 < sigma → S ≠ K → prob_touch S K T sigma < 1) := by
  constructor
  · have habs : |Real.log (S / K)| = |Real.log (K / S)| := by
      rw [show K / S = (S / K)⁻¹ by rw [inv_div], Real.log_inv, abs_neg]
    rw [prob_touch, prob_touch, habs]
  · intro hS hK hT hsigma hne
    have hcond : ¬(T ≤ 0 ∨ sigma ≤ 0) := by push_neg; exact ⟨hT, hsigma⟩
    rw [prob_touch, if_neg hcond]
    have hdiv : (0 : ℝ) < S / K := div_pos hS hK
    have hK0 : K ≠ 0 := ne_of_gt hK
    have hlog : Real.log (S / K) ≠ 0 := by
      intro h0
      rcases Real.log_eq_zero.mp h0 with h | h | h
      · exact absurd h (ne_of_gt hdiv)
      · apply hne
        field_simp at h
        exact h
      · linarith
    have hz : 0 < |Real.log (S / K)| / (sigma * Real.sqrt T) :=
      div_pos (abs_pos.mpr hlog) (mul_pos hsigma (Real.sqrt_pos.mpr hT))
    have hhalf := normCdf_gt_half hz
    linarith

/-- Witness for C10 at S = 100, K = 110, T = 1, σ = 1/2. -/
theorem prob_touch_symm_witness :
    prob_touch 100 110 1 (1 / 2) = prob_touch 110 100 1 (1 / 2) ∧
    prob_touch 100 110 1 (1 / 2) < 1 :=
  ⟨(prob_touch_symm 100 110 1 (1 / 2)).1,
   (prob_touch_symm 100 110 1 (1 / 2)).2 (by norm_num) (by norm_num) (by norm_num)
     (by norm_num) (by norm_num)⟩
